import Mathlib

/-!
Shallow embedding of `src/PaaschenCurveGen.py` (a Paschen-curve measurement
pipeline).  Python floats are modelled as exact rationals (`ℚ`); `None`/NaN
become `Option`; a raised exception (Python `ValueError` from
`datetime.strptime`) becomes `Except Unit`.  Timestamps are modelled as
rationals (seconds on an absolute axis), so that a timestamp difference is a
rational duration.
-/

namespace PaaschenCurveGen

/-- Python's `abs` on a rational. -/
def absQ (k : ℚ) : ℚ := if k < 0 then -k else k

/-- Python's two-argument `max` on rationals (returns the first argument when
they are equal — indistinguishable on a numeric type). -/
def maxQ (a b : ℚ) : ℚ := if a < b then b else a

/-- `np.mean` on a list of rationals: sum divided by length.  `np.mean([])` is
NaN in numpy; total rational division makes it `0` here, and every use below
is guarded so that the empty case never influences an observable result. -/
def meanQ (l : List ℚ) : ℚ := l.sum / l.length

/-- The square of `np.std(l, ddof=1)`: the Bessel-corrected sample variance
with divisor `N - 1`.  The code only takes this at lists of length ≥ 2, where
the divisor is positive. -/
def besselVar (l : List ℚ) : ℚ :=
  (l.map (fun x => (x - meanQ l) ^ 2)).sum / ((l.length : ℚ) - 1)

/-- One step of the hysteresis scan of `find_maxes` (lines 74–80).
State is the pair `(maxes, prev)`; the sample `k` is taken in absolute
value `i = |k|`:
  * if `prev > max(4*i, av)` the candidate is confirmed (appended) and
    `prev` reset to `i`;
  * else if `prev < i` the candidate is raised to `i`;
  * otherwise the state is unchanged. -/
def scanStep (av : ℚ) (s : List ℚ × ℚ) (k : ℚ) : List ℚ × ℚ :=
  let i := absQ k
  if s.2 > maxQ (4 * i) av then (s.1 ++ [s.2], i)
  else if s.2 < i then (s.1, i)
  else s

/-- The confirmed-peak list of the scan in `find_maxes`: a left fold of
`scanStep` over the series, with `prev` initialised to `0` and
`av = np.mean(series)` the mean of the *signed* samples (line 73:
`av = np.mean(df[channel])`, no absolute value). -/
def rawMaxes (series : List ℚ) : List ℚ :=
  (series.foldl (scanStep (meanQ series)) ([], 0)).1

/-- The squared spread used by the outlier trim (lines 83–86): the square of
`np.std(maxes, ddof=1)` when more than one peak remains, the square of the
sentinel `std = 10` otherwise. -/
def spreadSq (l : List ℚ) : ℚ := if 1 < l.length then besselVar l else 10 ^ 2

/-- The outlier trim (lines 87–90): keep `m` with
`mean - 2*std ≤ m ≤ mean + 2*std` where `std = sqrt (spreadSq l)`.
Since `spreadSq l ≥ 0`, that real-number condition is exactly
`(m - mean)^2 ≤ 4 * spreadSq l`, which is how it is decided here without
leaving `ℚ`. -/
def trimOutliers (l : List ℚ) : List ℚ :=
  l.filter (fun m => decide ((m - meanQ l) ^ 2 ≤ 4 * spreadSq l))

/-- `find_maxes` (lines 70–92): hysteresis scan, then `maxes.pop(0)` when the
list is nonempty (= `List.tail`, which is also the identity on `[]`), then the
±2σ outlier trim. -/
def find_maxes (series : List ℚ) : List ℚ :=
  trimOutliers (rawMaxes series).tail

/-- Insert into a sorted list, ascending. -/
def insertSorted (x : ℚ) : List ℚ → List ℚ
  | [] => [x]
  | y :: ys => if x ≤ y then x :: y :: ys else y :: insertSorted x ys

/-- `np.sort`: ascending insertion sort. -/
def sortQ (l : List ℚ) : List ℚ := l.foldr insertSorted []

/-- `np.median`: sort ascending; the middle element for odd length, the
average of the two middle elements for even length.  (`np.median([])` is NaN;
modelled as `0`, unused by the pipeline since slope lists have length ≥ 1.) -/
def medianQ (l : List ℚ) : ℚ :=
  let s := sortQ l
  let n := l.length
  if n % 2 = 1 then s.getD (n / 2) 0
  else (s.getD (n / 2 - 1) 0 + s.getD (n / 2) 0) / 2

/-- `np.diff`: consecutive differences `l[i+1] - l[i]`. -/
def diffs (l : List ℚ) : List ℚ := List.zipWith (· - ·) l.tail l

/-- `calculate_median_slope` (lines 94–97): the median of
`np.diff(values) / np.diff(times)` (element-wise division). -/
def calculate_median_slope (times values : List ℚ) : ℚ :=
  medianQ (List.zipWith (· / ·) (diffs values) (diffs times))

/-- The nearest-timestamp lookup of `map_pressure_to_file` (lines 118–123):
the pressure value of a sample at minimal `|timestamp - query|`, `none` for an
empty series.  The source takes `argsort()[:1]` of the absolute differences
(an unstable sort, so which minimising sample wins a tie is unspecified);
this embedding deterministically keeps the earliest minimising sample, by
folding a strict comparison over the rest of the series. -/
def nearestFold (q : ℚ) (p : ℚ × ℚ) (rest : List (ℚ × ℚ)) : ℚ × ℚ :=
  rest.foldl (fun best r => if absQ (r.1 - q) < absQ (best.1 - q) then r else best) p

/-- The nearest-timestamp lookup proper: `none` on an empty series, otherwise
the (timestamp, pressure) sample kept by `nearestFold`. -/
def nearestPressure (ps : List (ℚ × ℚ)) (q : ℚ) : Option ℚ :=
  match ps with
  | [] => none
  | p :: rest => some (nearestFold q p rest).2

/-- A capture file as the folder loop sees it after `read_dso_csv` succeeded:
a numeric identity standing for the file name, the result of parsing the
timestamp out of the file name (`none` models a `datetime.strptime`
`ValueError`), the shared `Time (ms)` axis, and the `CH*` channels as
(channel identity, amplitude series) pairs. -/
structure CaptureFile where
  name : ℕ
  timeParse : Option ℚ
  times : List ℚ
  channels : List (ℕ × List ℚ)
  deriving DecidableEq

/-- One Summary Row (lines 145–152).  `std_sq` records the square of
`np.std(maxes, ddof=1)`; `none` models the NaN that `ddof=1` produces on a
single peak.  `pressure` is `none` when the pressure series was empty. -/
structure SummaryRow where
  name : ℕ
  channel : ℕ
  mean_max : ℚ
  std_sq : Option ℚ
  median_slope : ℚ
  pressure : Option ℚ
  deriving DecidableEq

/-- `map_pressure_to_file` (lines 113–123): parse the capture timestamp out of
the file name — `datetime.strptime` raises `ValueError` on failure, modelled
as `Except.error` — then look up the nearest pressure sample. -/
def map_pressure_to_file (ps : List (ℚ × ℚ)) (timeParse : Option ℚ) :
    Except Unit (Option ℚ) :=
  match timeParse with
  | none => .error ()
  | some t => .ok (nearestPressure ps t)

/-- The per-channel body of the folder loop (lines 136–152): extract peaks,
scale them by the folder's amplitude multiplier, and if any remain compute the
mean, the (squared) sample standard deviation, the median slope and the
aligned pressure — scaling the pressure only when it is present — and emit one
Summary Row.  An empty scaled peak list emits nothing; an unparseable file
name raises out of `map_pressure_to_file`. -/
def processChannel (ps : List (ℚ × ℚ)) (mMul pMul : ℚ) (f : CaptureFile)
    (c : ℕ × List ℚ) : Except Unit (Option SummaryRow) :=
  let maxes := (find_maxes c.2).map (· * mMul)
  if maxes = [] then .ok none
  else
    match map_pressure_to_file ps f.timeParse with
    | .error e => .error e
    | .ok pr =>
        .ok (some
          { name := f.name
            channel := c.1
            mean_max := meanQ maxes
            std_sq := if 1 < maxes.length then some (besselVar maxes) else none
            median_slope := calculate_median_slope f.times c.2
            pressure := pr.map (· * pMul) })

/-- The channel loop of `process_folder` for one file: rows in channel order;
a raised exception aborts the whole loop (there is no handler in
`process_folder`). -/
def runChannels (ps : List (ℚ × ℚ)) (mMul pMul : ℚ) (f : CaptureFile) :
    List (ℕ × List ℚ) → Except Unit (List SummaryRow)
  | [] => .ok []
  | c :: rest =>
      match processChannel ps mMul pMul f c with
      | .error e => .error e
      | .ok none => runChannels ps mMul pMul f rest
      | .ok (some r) =>
          match runChannels ps mMul pMul f rest with
          | .error e => .error e
          | .ok rs => .ok (r :: rs)

/-- All Summary Rows of one capture file. -/
def processFile (ps : List (ℚ × ℚ)) (mMul pMul : ℚ) (f : CaptureFile) :
    Except Unit (List SummaryRow) :=
  runChannels ps mMul pMul f f.channels

/-- `process_folder` (lines 125–154) over the already-ingested capture files
of a folder: rows in file-then-channel order.  The Python body has no
`try`/`except`, so an exception raised while processing any file is not
caught: it aborts the folder (and the run) and the partial `results` list is
lost, which `Except.error` models. -/
def process_folder (ps : List (ℚ × ℚ)) (mMul pMul : ℚ) :
    List CaptureFile → Except Unit (List SummaryRow)
  | [] => .ok []
  | f :: rest =>
      match processFile ps mMul pMul f with
      | .error e => .error e
      | .ok rs =>
          match process_folder ps mMul pMul rest with
          | .error e => .error e
          | .ok rs2 => .ok (rs ++ rs2)

/-- Modelled from the spec (§4.1, C1's reading): the same hysteresis scan but
with `avg` the arithmetic mean of the *absolute* amplitude over the whole
series, as the claim states it. -/
def rawMaxesAbsAvg (series : List ℚ) : List ℚ :=
  (series.foldl (scanStep (meanQ (series.map absQ))) ([], 0)).1

/-- Modelled from the spec (§4.1, C1's reading): `find_maxes` with the
absolute-mean scan of `rawMaxesAbsAvg`, the rest unchanged. -/
def find_maxesAbsAvg (series : List ℚ) : List ℚ :=
  trimOutliers (rawMaxesAbsAvg series).tail

/-- The hysteresis scan written as structural recursion on the series, with
`prev` carried explicitly: it confirms `prev` (emitting it) exactly when
`prev > max(4*|x|, av)`, raises `prev` to `|x|` when `prev < |x|`, and leaves
`prev` unchanged otherwise.  This is the per-sample description of the
algorithm; the fold `rawMaxes` is proved to agree with it below. -/
def scanRec (av prev : ℚ) : List ℚ → List ℚ
  | [] => []
  | k :: rest =>
      if prev > maxQ (4 * absQ k) av then prev :: scanRec av (absQ k) rest
      else if prev < absQ k then scanRec av (absQ k) rest
      else scanRec av prev rest

/-! Concrete fixtures used by witnesses and counterexamples. -/

/-- A fixture series: `find_maxes` confirms raw peaks `[2, 8, 8]` on it
(signed mean `12/7`), while the absolute-mean variant (mean `24/7`) confirms
only `[8, 8]`. -/
def sData : List ℚ := [2, 0, 8, 0, 8, 0, -6]

/-- A fixture series with exactly two confirmed raw peaks `[2, 8]`, hence a
single final peak `[8]` after the warm-up discard. -/
def tData : List ℚ := [2, 0, 8, 0, -4]

/-- A one-sample pressure series fixture: pressure `5` at time `0`. -/
def psData : List (ℚ × ℚ) := [(0, 5)]

/-- A capture file whose name fails to parse (`timeParse = none`) but whose
only channel yields a nonempty peak set. -/
def badFile : CaptureFile := ⟨0, none, [0, 1, 2, 3, 4, 5, 6], [(1, sData)]⟩

/-- A capture file that parses fine and yields a summary row. -/
def goodFile : CaptureFile := ⟨1, some 0, [0, 1, 2, 3, 4, 5, 6], [(1, sData)]⟩

/-! Helper lemmas. -/

theorem absQ_nonneg (k : ℚ) : 0 ≤ absQ k := by
  unfold absQ; split <;> linarith

theorem le_maxQ_left (a b : ℚ) : a ≤ maxQ a b := by
  unfold maxQ; split <;> linarith

theorem meanQ_singleton (p : ℚ) : meanQ [p] = p := by
  simp [meanQ]

theorem sum_map_mul (m : ℚ) (l : List ℚ) : (l.map (· * m)).sum = l.sum * m := by
  induction l with
  | nil => simp
  | cons a l ih => simp only [List.map_cons, List.sum_cons, ih]; ring

theorem rawMaxes_sData_eval : rawMaxes sData = [2, 8, 8] := by
  norm_num [rawMaxes, sData, scanStep, meanQ, absQ, maxQ]

theorem find_maxes_sData_eval : find_maxes sData = [8, 8] := by
  norm_num [find_maxes, trimOutliers, rawMaxes, sData, scanStep, meanQ, absQ, maxQ,
    List.filter, spreadSq, besselVar]

theorem rawMaxesAbsAvg_sData_eval : rawMaxesAbsAvg sData = [8, 8] := by
  norm_num [rawMaxesAbsAvg, sData, scanStep, meanQ, absQ, maxQ]

theorem find_maxesAbsAvg_sData_eval : find_maxesAbsAvg sData = [8] := by
  norm_num [find_maxesAbsAvg, trimOutliers, rawMaxesAbsAvg, sData, scanStep, meanQ, absQ,
    maxQ, List.filter, spreadSq, besselVar]

theorem find_maxes_tData_eval : find_maxes tData = [8] := by
  norm_num [find_maxes, trimOutliers, rawMaxes, tData, scanStep, meanQ, absQ, maxQ,
    List.filter, spreadSq, besselVar]

/-- The fold of `scanStep` continues a structural `scanRec` run from any
intermediate state. -/
theorem foldl_scanStep_eq_scanRec (av : ℚ) :
    ∀ (l : List ℚ) (acc : List ℚ × ℚ),
      (l.foldl (scanStep av) acc).1 = acc.1 ++ scanRec av acc.2 l := by
  intro l
  induction l with
  | nil => intro acc; simp [scanRec]
  | cons k rest ih =>
      intro acc
      rw [List.foldl_cons, ih]
      simp only [scanStep, scanRec]
      split_ifs <;> simp [List.append_assoc]

/-! Claims, in the order they were settled. -/

/-- C1 (corrected), counterexample.  The claim states that the Peak
Extractor computes `avg` as the arithmetic mean of the *absolute* amplitude.
The source (line 73, `av = np.mean(df[channel])`) takes the mean of the
signed samples.  On the series `sData = [2, 0, 8, 0, 8, 0, -6]` the two
readings disagree: the code confirms raw peaks `[2, 8, 8]` and returns
`[8, 8]`, while the claimed absolute-mean algorithm confirms `[8, 8]` and
returns `[8]`. -/
theorem C1_counterexample :
    rawMaxes sData = [2, 8, 8] ∧ rawMaxesAbsAvg sData = [8, 8] ∧
    find_maxes sData = [8, 8] ∧ find_maxesAbsAvg sData = [8] :=
  ⟨rawMaxes_sData_eval, rawMaxesAbsAvg_sData_eval,
   find_maxes_sData_eval, find_maxesAbsAvg_sData_eval⟩

/-- C1 (amended).  The Peak Extractor's scan computes `avg` as the
arithmetic mean of the *signed* amplitude over the whole series
(`meanQ series`), keeps a running candidate `prev` initialised to `0`, and
for each sample `x` confirms `prev` as a peak and resets `prev` to `|x|`
exactly when `prev > max(4*|x|, avg)`, updates `prev` to `|x|` when
`prev < |x|`, and otherwise leaves `prev` unchanged: the fold implementing
the scan agrees with that per-sample recursion. -/
theorem C1_hysteresis_scan (series : List ℚ) :
    rawMaxes series = scanRec (meanQ series) 0 series := by
  unfold rawMaxes
  rw [foldl_scanStep_eq_scanRec]
  simp

/-- C4 (confirmed).  The first confirmed peak of the scan is discarded
(`maxes.pop(0)`, the identity on an empty list), even when it is the only
confirmed peak: zero confirmed peaks give an empty final set, and exactly one
confirmed peak also gives an empty final set. -/
theorem C4_warmup_discard (series : List ℚ) :
    find_maxes series = trimOutliers (rawMaxes series).tail ∧
    (rawMaxes series = [] → find_maxes series = []) ∧
    (∀ p : ℚ, rawMaxes series = [p] → find_maxes series = []) := by
  refine ⟨rfl, ?_, ?_⟩
  · intro h
    simp [find_maxes, h, trimOutliers]
  · intro p h
    simp [find_maxes, h, trimOutliers]

/-- Witness for C4 at the series `[-4, 1, 0]`, which confirms exactly one raw
peak. -/
theorem C4_witness :
    rawMaxes [-4, 1, 0] = [4] ∧ find_maxes [-4, 1, 0] = [] := by
  have h : rawMaxes [-4, 1, 0] = [4] := by
    norm_num [rawMaxes, scanStep, meanQ, absQ, maxQ]
  exact ⟨h, (C4_warmup_discard [-4, 1, 0]).2.2 4 h⟩

/-- C7 (confirmed).  Scaling every peak by a multiplier `m` (the folder
loop's `[m * max_multiplier for m in maxes]`, line 137) and then taking the
mean equals `m` times the mean of the unscaled peaks, for every nonempty
peak list. -/
theorem C7_scale_mean_linear (peaks : List ℚ) (m : ℚ) (_hne : peaks ≠ []) :
    meanQ (peaks.map (· * m)) = m * meanQ peaks := by
  unfold meanQ
  rw [List.length_map, sum_map_mul, mul_comm peaks.sum m, mul_div_assoc]

/-- Witness for C7 at peaks `[1, 3]` and multiplier `5`. -/
theorem C7_witness :
    ([(1 : ℚ), 3] ≠ []) ∧ meanQ ([(1 : ℚ), 3].map (· * 5)) = 5 * meanQ [1, 3] :=
  ⟨by simp, C7_scale_mean_linear [1, 3] 5 (by simp)⟩

/-- The squared two-sided bound is equivalent to the interval bound, for a
nonnegative square root `s` of the spread. -/
theorem sq_bound_iff_interval (mu m s : ℚ) (hs : 0 ≤ s) :
    (m - mu) ^ 2 ≤ 4 * (s * s) ↔ (mu - 2 * s ≤ m ∧ m ≤ mu + 2 * s) := by
  constructor
  · intro h
    constructor <;> nlinarith [sq_nonneg (m - mu), sq_nonneg (m - mu - 2 * s),
      sq_nonneg (m - mu + 2 * s)]
  · rintro ⟨h1, h2⟩
    nlinarith

/-- C3 (confirmed).  The outlier trim of `find_maxes` (lines 83–90): with
`rem` the peaks remaining after the warm-up discard, the spread (squared) is
the sentinel `10 ^ 2` when fewer than 2 peaks remain and the Bessel-corrected
sample variance otherwise; and for any nonnegative `s` with
`s * s = spreadSq rem` (i.e. `s` is the standard deviation the source
computes), the final result keeps exactly the peaks inside
`[mean - 2*s, mean + 2*s]`. -/
theorem C3_outlier_trim (series : List ℚ) (rem : List ℚ)
    (hrem : rem = (rawMaxes series).tail) :
    (rem.length < 2 → spreadSq rem = 10 ^ 2) ∧
    (2 ≤ rem.length → spreadSq rem = besselVar rem) ∧
    (∀ s : ℚ, 0 ≤ s → s * s = spreadSq rem →
      find_maxes series =
        rem.filter (fun m => decide (meanQ rem - 2 * s ≤ m ∧ m ≤ meanQ rem + 2 * s))) := by
  refine ⟨?_, ?_, ?_⟩
  · intro h
    unfold spreadSq
    rw [if_neg (by omega)]
  · intro h
    unfold spreadSq
    rw [if_pos (by omega)]
  · intro s hs hss
    rw [find_maxes, ← hrem]
    unfold trimOutliers
    apply List.filter_congr
    intro m _
    rw [decide_eq_decide, ← hss]
    exact sq_bound_iff_interval (meanQ rem) m s hs

/-- Witness for C3 at `sData`: the remaining peaks are `[8, 8]`, the spread
is the Bessel variance `0`, and the trim keeps both peaks. -/
theorem C3_witness :
    spreadSq [(8 : ℚ), 8] = besselVar [8, 8] ∧
    find_maxes sData =
      [(8 : ℚ), 8].filter
        (fun m => decide (meanQ [8, 8] - 2 * 0 ≤ m ∧ m ≤ meanQ [8, 8] + 2 * 0)) := by
  have hrem : [(8 : ℚ), 8] = (rawMaxes sData).tail := by
    rw [rawMaxes_sData_eval]; rfl
  exact ⟨(C3_outlier_trim sData [8, 8] hrem).2.1 (by norm_num),
    (C3_outlier_trim sData [8, 8] hrem).2.2 0 le_rfl
      (by norm_num [spreadSq, besselVar, meanQ])⟩

/-- Every element the scan fold adds to the confirmed list either was already
in the accumulator, is the accumulator's positive running candidate, or is
the absolute value of a sample of the scanned list; the final candidate is
the initial one or the absolute value of a sample. -/
theorem scanStep_foldl_mem (av : ℚ) :
    ∀ (l : List ℚ) (acc : List ℚ × ℚ) (q : ℚ),
      q ∈ (l.foldl (scanStep av) acc).1 →
      q ∈ acc.1 ∨ (q = acc.2 ∧ 0 < q) ∨ ∃ x ∈ l, q = absQ x := by
  intro l
  induction l with
  | nil => intro acc q hq; exact Or.inl hq
  | cons k rest ih =>
      intro acc q hq
      rw [List.foldl_cons] at hq
      rcases ih (scanStep av acc k) q hq with h | h | h
      · -- q was produced by the first step (or was already there)
        by_cases h1 : acc.2 > maxQ (4 * absQ k) av
        · rw [scanStep, if_pos h1] at h
          rcases List.mem_append.1 h with h' | h'
          · exact Or.inl h'
          · have hq2 : q = acc.2 := by simpa using h'
            have hpos : 0 < acc.2 := by
              have h4 : 4 * absQ k ≤ maxQ (4 * absQ k) av := le_maxQ_left _ _
              have := absQ_nonneg k
              linarith
            exact Or.inr (Or.inl ⟨hq2, hq2 ▸ hpos⟩)
        · by_cases h2 : acc.2 < absQ k
          · rw [scanStep] at h
            simp only [if_neg h1, if_pos h2] at h
            exact Or.inl h
          · rw [scanStep] at h
            simp only [if_neg h1, if_neg h2] at h
            exact Or.inl h
      · -- q equals the candidate after the first step
        obtain ⟨hq2, hqpos⟩ := h
        by_cases h1 : acc.2 > maxQ (4 * absQ k) av
        · rw [scanStep, if_pos h1] at hq2
          exact Or.inr (Or.inr ⟨k, List.mem_cons_self k rest, hq2⟩)
        · by_cases h2 : acc.2 < absQ k
          · rw [scanStep] at hq2
            simp only [if_neg h1, if_pos h2] at hq2
            exact Or.inr (Or.inr ⟨k, List.mem_cons_self k rest, hq2⟩)
          · rw [scanStep] at hq2
            simp only [if_neg h1, if_neg h2] at hq2
            exact Or.inr (Or.inl ⟨hq2, hqpos⟩)
      · obtain ⟨x, hx, hqx⟩ := h
        exact Or.inr (Or.inr ⟨x, List.mem_cons_of_mem k hx, hqx⟩)

/-- C10 (confirmed).  Every peak returned by `find_maxes` is nonnegative
and is the absolute value of some sample of the input series: the extractor
never fabricates an amplitude that does not occur, in absolute value, in the
input. -/
theorem C10_peaks_are_sample_abs (series : List ℚ) (p : ℚ)
    (hp : p ∈ find_maxes series) :
    0 ≤ p ∧ ∃ x ∈ series, p = absQ x := by
  have hmem : p ∈ rawMaxes series := by
    have h1 : p ∈ (rawMaxes series).tail := List.mem_of_mem_filter hp
    exact List.tail_subset _ h1
  rcases scanStep_foldl_mem (meanQ series) series ([], 0) p hmem with h | h | h
  · simp at h
  · exact absurd h.2 (by rw [h.1]; exact lt_irrefl 0)
  · obtain ⟨x, hx, hpx⟩ := h
    exact ⟨hpx ▸ absQ_nonneg x, x, hx, hpx⟩

/-- Witness for C10 at `sData`, whose peak `8` is `|8|` for the sample `8`. -/
theorem C10_witness :
    0 ≤ (8 : ℚ) ∧ ∃ x ∈ sData, (8 : ℚ) = absQ x :=
  C10_peaks_are_sample_abs sData 8 (by rw [find_maxes_sData_eval]; simp)

/-- C5 (confirmed).  For equal-length sequences `times` and `values` with
at least 2 elements and distinct consecutive time samples, the Slope
Estimator returns the median of the sequence whose `i`-th element is
`(values[i+1] - values[i]) / (times[i+1] - times[i])`. -/
theorem C5_median_slope (times values : List ℚ)
    (hlen : times.length = values.length) (h2 : 2 ≤ times.length)
    (_hconsec : ∀ i : ℕ, i + 1 < times.length → times.getD (i + 1) 0 ≠ times.getD i 0) :
    calculate_median_slope times values =
      medianQ (List.ofFn fun i : Fin (times.length - 1) =>
        (values.getD (i.1 + 1) 0 - values.getD i.1 0) /
          (times.getD (i.1 + 1) 0 - times.getD i.1 0)) := by
  unfold calculate_median_slope
  congr 1
  have hdv : (diffs values).length = values.length - 1 := by
    simp [diffs, List.length_tail]
  have hdt : (diffs times).length = times.length - 1 := by
    simp [diffs, List.length_tail]
  apply List.ext_getElem
  · simp [hdv, hdt, List.length_ofFn, hlen]
  · intro i hi1 hi2
    have hit : i + 1 < times.length := by
      rw [List.length_zipWith, hdv, hdt] at hi1; omega
    have hiv : i + 1 < values.length := by rw [← hlen]; exact hit
    rw [List.getElem_zipWith, List.getElem_ofFn]
    simp only [diffs]
    rw [List.getElem_zipWith, List.getElem_zipWith, List.getElem_tail, List.getElem_tail]
    rw [List.getD_eq_getElem values 0 hiv, List.getD_eq_getElem times 0 hit,
      List.getD_eq_getElem values 0 (by omega : i < values.length),
      List.getD_eq_getElem times 0 (by omega : i < times.length)]

/-- Witness for C5 at `times = [0, 1, 2]`, `values = [0, 2, 4]`. -/
theorem C5_witness :
    calculate_median_slope [0, 1, 2] [0, 2, 4] =
      medianQ (List.ofFn fun i : Fin (([(0 : ℚ), 1, 2] : List ℚ).length - 1) =>
        ([(0 : ℚ), 2, 4].getD (i.1 + 1) 0 - [(0 : ℚ), 2, 4].getD i.1 0) /
          ([(0 : ℚ), 1, 2].getD (i.1 + 1) 0 - [(0 : ℚ), 1, 2].getD i.1 0)) :=
  C5_median_slope [0, 1, 2] [0, 2, 4] (by simp) (by simp)
    (by
      intro i hi
      simp only [List.length_cons, List.length_nil] at hi
      have hi2 : i < 2 := by omega
      interval_cases i <;>
        norm_num [List.getD_cons_zero, List.getD_cons_succ])

/-- The strict-comparison fold keeps a sample of the series whose absolute
time difference to the query is minimal. -/
theorem nearestFold_spec (q : ℚ) :
    ∀ (rest : List (ℚ × ℚ)) (p : ℚ × ℚ),
      nearestFold q p rest ∈ p :: rest ∧
      absQ ((nearestFold q p rest).1 - q) ≤ absQ (p.1 - q) ∧
      ∀ r ∈ rest, absQ ((nearestFold q p rest).1 - q) ≤ absQ (r.1 - q) := by
  intro rest
  induction rest with
  | nil =>
      intro p
      refine ⟨List.mem_singleton.2 rfl, le_refl _, ?_⟩
      intro r hr
      simp at hr
  | cons r rs ih =>
      intro p
      have hstep : nearestFold q p (r :: rs) =
          nearestFold q (if absQ (r.1 - q) < absQ (p.1 - q) then r else p) rs := rfl
      by_cases hc : absQ (r.1 - q) < absQ (p.1 - q)
      · rw [hstep, if_pos hc]
        obtain ⟨hmem, hle, hall⟩ := ih r
        refine ⟨List.mem_cons_of_mem p hmem, le_trans hle (le_of_lt hc), ?_⟩
        intro x hx
        rcases List.mem_cons.1 hx with h | h
        · exact h ▸ hle
        · exact hall x h
      · rw [hstep, if_neg hc]
        obtain ⟨hmem, hle, hall⟩ := ih p
        have hpr : absQ (p.1 - q) ≤ absQ (r.1 - q) := not_lt.1 hc
        refine ⟨?_, hle, ?_⟩
        · rcases List.mem_cons.1 hmem with h | h
          · rw [h]; exact List.mem_cons_self p (r :: rs)
          · exact List.mem_cons_of_mem p (List.mem_cons_of_mem r h)
        · intro x hx
          rcases List.mem_cons.1 hx with h | h
          · exact h ▸ le_trans hle hpr
          · exact hall x h

/-- C6 (confirmed).  The Timestamp Aligner returns the pressure value of
a sample whose absolute time difference to the query time is minimal over the
whole series, and it returns `none` if and only if the pressure series is
empty. -/
theorem C6_nearest_pressure (ps : List (ℚ × ℚ)) (q : ℚ) :
    (nearestPressure ps q = none ↔ ps = []) ∧
    (ps ≠ [] → ∃ pr ∈ ps, nearestPressure ps q = some pr.2 ∧
      ∀ r ∈ ps, absQ (pr.1 - q) ≤ absQ (r.1 - q)) := by
  match ps with
  | [] => exact ⟨by simp [nearestPressure], fun h => absurd rfl h⟩
  | p :: rest =>
      refine ⟨by simp [nearestPressure], fun _ => ?_⟩
      obtain ⟨hmem, hle, hall⟩ := nearestFold_spec q rest p
      refine ⟨nearestFold q p rest, hmem, rfl, ?_⟩
      intro r hr
      rcases List.mem_cons.1 hr with h | h
      · exact h ▸ hle
      · exact hall r h

/-- Witness for C6: series `[(10, 1), (5, 2)]`, query `6` — the sample at
time `5` is nearest and its pressure `2` is returned. -/
theorem C6_witness :
    (([((10 : ℚ), (1 : ℚ)), (5, 2)] : List (ℚ × ℚ)) ≠ []) ∧
    ∃ pr ∈ ([((10 : ℚ), (1 : ℚ)), (5, 2)] : List (ℚ × ℚ)),
      nearestPressure [(10, 1), (5, 2)] 6 = some pr.2 ∧
      ∀ r ∈ ([((10 : ℚ), (1 : ℚ)), (5, 2)] : List (ℚ × ℚ)),
        absQ (pr.1 - 6) ≤ absQ (r.1 - 6) :=
  ⟨by simp, (C6_nearest_pressure [(10, 1), (5, 2)] 6).2 (by simp)⟩

/-- A channel whose `ok none` result is dropped can be removed from the
channel list without changing the loop's outcome. -/
theorem runChannels_skip (ps : List (ℚ × ℚ)) (mMul pMul : ℚ) (f : CaptureFile)
    (c : ℕ × List ℚ) (hc : processChannel ps mMul pMul f c = .ok none) :
    ∀ pre post, runChannels ps mMul pMul f (pre ++ c :: post) =
      runChannels ps mMul pMul f (pre ++ post) := by
  intro pre
  induction pre with
  | nil =>
      intro post
      simp only [List.nil_append, runChannels, hc]
  | cons a pre ih =>
      intro post
      rw [List.cons_append, List.cons_append]
      simp only [runChannels, List.append_eq]
      rw [ih post]

/-- C8 (confirmed).  A channel whose extracted (and scaled) peak set is
empty contributes no Summary Row — the channel body short-circuits before any
statistics, slope, or pressure computation — and removing it from the channel
list leaves the file's output unchanged: processing continues with the other
channels. -/
theorem C8_empty_peaks_skip (ps : List (ℚ × ℚ)) (mMul pMul : ℚ) (f : CaptureFile)
    (c : ℕ × List ℚ) (hempty : (find_maxes c.2).map (· * mMul) = []) :
    processChannel ps mMul pMul f c = .ok none ∧
    ∀ pre post, f.channels = pre ++ c :: post →
      processFile ps mMul pMul f = runChannels ps mMul pMul f (pre ++ post) := by
  have h1 : processChannel ps mMul pMul f c = .ok none := by
    unfold processChannel
    rw [if_pos hempty]
  refine ⟨h1, ?_⟩
  intro pre post hch
  rw [processFile, hch]
  exact runChannels_skip ps mMul pMul f c h1 pre post

/-- A fixture capture file with one empty-peak channel `(1, [1])` followed by
a productive channel `(2, sData)`. -/
def skipFile : CaptureFile := ⟨2, some 0, [0, 1, 2, 3, 4, 5, 6], [(1, [1]), (2, sData)]⟩

theorem find_maxes_one_eval : find_maxes [1] = [] := by
  norm_num [find_maxes, trimOutliers, rawMaxes, scanStep, meanQ, absQ, maxQ,
    List.filter, spreadSq, besselVar]

/-- Witness for C8 at `skipFile`: its first channel yields no peaks, so it
emits no row and the file's rows are those of the remaining channel. -/
theorem C8_witness :
    processChannel psData 1 1 skipFile (1, [1]) = .ok none ∧
    processFile psData 1 1 skipFile = runChannels psData 1 1 skipFile [(2, sData)] := by
  have h := C8_empty_peaks_skip psData 1 1 skipFile (1, [1])
    (by rw [find_maxes_one_eval]; rfl)
  exact ⟨h.1, h.2 [] [(2, sData)] rfl⟩

/-- C9 (confirmed).  When a channel's final (scaled) peak set is exactly
one peak `[p]` and the file's timestamp parses, the emitted Summary Row has
`std_sq = none` (the NaN that `np.std(·, ddof=1)` yields on one sample) and
never `some 0`, while the mean (`= p`), median slope and aligned pressure are
still computed and the row is emitted. -/
theorem C9_single_peak_std_nan (ps : List (ℚ × ℚ)) (mMul pMul : ℚ)
    (f : CaptureFile) (c : ℕ × List ℚ) (t p : ℚ)
    (hone : (find_maxes c.2).map (· * mMul) = [p])
    (ht : f.timeParse = some t) :
    processChannel ps mMul pMul f c = .ok (some
      { name := f.name, channel := c.1, mean_max := p, std_sq := none,
        median_slope := calculate_median_slope f.times c.2,
        pressure := (nearestPressure ps t).map (· * pMul) }) ∧
    ∀ r : SummaryRow, processChannel ps mMul pMul f c = .ok (some r) →
      r.std_sq = none ∧ r.std_sq ≠ some 0 := by
  have h1 : processChannel ps mMul pMul f c = .ok (some
      { name := f.name, channel := c.1, mean_max := p, std_sq := none,
        median_slope := calculate_median_slope f.times c.2,
        pressure := (nearestPressure ps t).map (· * pMul) }) := by
    unfold processChannel map_pressure_to_file
    rw [hone, ht]
    simp [meanQ_singleton]
  refine ⟨h1, ?_⟩
  intro r hr
  rw [h1] at hr
  injection hr with h
  injection h with h2
  rw [← h2]
  exact ⟨rfl, by simp⟩

/-- A fixture capture file whose single channel `(1, tData)` yields exactly
one final peak. -/
def oneFile : CaptureFile := ⟨3, some 0, [0, 1, 2, 3, 4], [(1, tData)]⟩

/-- Witness for C9 at `oneFile`: one final peak `8`, `std_sq = none`, and the
other fields computed. -/
theorem C9_witness :
    processChannel psData 1 2 oneFile (1, tData) = .ok (some
      { name := oneFile.name, channel := 1, mean_max := 8, std_sq := none,
        median_slope := calculate_median_slope oneFile.times tData,
        pressure := (nearestPressure psData 0).map (· * 2) }) :=
  (C9_single_peak_std_nan psData 1 2 oneFile (1, tData) 0 8
    (by rw [find_maxes_tData_eval]; norm_num) rfl).1

/-- A file whose name does not parse propagates the `strptime` error out of
the channel loop as soon as some channel has a nonempty peak set. -/
theorem runChannels_error (ps : List (ℚ × ℚ)) (mMul pMul : ℚ) (f : CaptureFile)
    (hparse : f.timeParse = none) :
    ∀ chans : List (ℕ × List ℚ), (∃ c ∈ chans, find_maxes c.2 ≠ []) →
      runChannels ps mMul pMul f chans = .error () := by
  intro chans
  induction chans with
  | nil => rintro ⟨c, hc, _⟩; simp at hc
  | cons a rest ih =>
      rintro ⟨c, hc, hne⟩
      by_cases ha : find_maxes a.2 = []
      · have hmem : c ∈ rest := by
          rcases List.mem_cons.1 hc with h | h
          · exact absurd (h ▸ ha) hne
          · exact h
        have hskip : processChannel ps mMul pMul f a = .ok none := by
          unfold processChannel
          rw [ha]
          simp
        simp only [runChannels, hskip]
        exact ih ⟨c, hmem, hne⟩
      · have hmapne : ¬((find_maxes a.2).map (· * mMul) = []) := by
          simpa [List.map_eq_nil_iff] using ha
        have herr : processChannel ps mMul pMul f a = .error () := by
          unfold processChannel map_pressure_to_file
          rw [hparse, if_neg hmapne]
        simp only [runChannels, herr]

/-- C2 (amended).  An unparseable capture-file timestamp is *not* a
local, skip-and-continue error: when the first file of a folder has an
unparseable name and some channel of it yields a nonempty peak set, the
uncaught `strptime` exception aborts `process_folder` — no Summary Row is
emitted for any file of the folder, and the remaining files are never
processed. -/
theorem C2_parse_error_propagates (ps : List (ℚ × ℚ)) (mMul pMul : ℚ)
    (f : CaptureFile) (rest : List CaptureFile) (hparse : f.timeParse = none)
    (hpeaks : ∃ c ∈ f.channels, find_maxes c.2 ≠ []) :
    process_folder ps mMul pMul (f :: rest) = .error () := by
  have h1 : processFile ps mMul pMul f = .error () :=
    runChannels_error ps mMul pMul f hparse f.channels hpeaks
  simp only [process_folder, processFile] at h1 ⊢
  rw [h1]

/-- Witness for the amended C2 at `badFile`. -/
theorem C2_witness :
    process_folder psData 1 1 [badFile] = .error () :=
  C2_parse_error_propagates psData 1 1 badFile [] rfl
    ⟨(1, sData), by simp [badFile], by rw [find_maxes_sData_eval]; simp⟩

theorem median_slope_good_eval :
    calculate_median_slope [0, 1, 2, 3, 4, 5, 6] sData = -4 := by
  norm_num [calculate_median_slope, diffs, sData, medianQ, sortQ, insertSorted,
    List.getD_cons_zero, List.getD_cons_succ]

/-- C2 (corrected), counterexample.  The claim says a timestamp-parse
failure is fatal only for that file and processing continues with the rest of
the folder.  On the concrete folder `[badFile, goodFile]` the parse failure
of `badFile` aborts `process_folder` entirely (`Except.error`), so even
`goodFile` contributes no Summary Row — although `goodFile` alone produces
one. -/
theorem C2_counterexample :
    process_folder psData 1 1 [badFile, goodFile] = .error () ∧
    process_folder psData 1 1 [goodFile] =
      .ok [⟨1, 1, 8, some 0, -4, some 5⟩] := by
  constructor
  · have hbad : runChannels psData 1 1 badFile [(1, sData)] = .error () :=
      runChannels_error psData 1 1 badFile rfl [(1, sData)]
        ⟨(1, sData), by simp, by rw [find_maxes_sData_eval]; simp⟩
    simp only [process_folder, processFile]
    rw [show badFile.channels = [(1, sData)] from rfl, hbad]
  · have hch : processChannel psData 1 1 goodFile (1, sData) =
        .ok (some ⟨1, 1, 8, some 0, -4, some 5⟩) := by
      unfold processChannel map_pressure_to_file
      rw [find_maxes_sData_eval]
      norm_num [goodFile, nearestPressure, nearestFold, meanQ, besselVar,
        median_slope_good_eval, psData]
      intro h
      exact absurd h (by simp)
    simp only [process_folder, processFile]
    rw [show goodFile.channels = [(1, sData)] from rfl]
    simp only [runChannels, hch]
    simp

end PaaschenCurveGen
